import Mathlib

/-!
Verification development for the `hr-weather-qs` terminal assistant core.

The definitions below are a shallow embedding of the Python sources
`src/terminal/agent.py`, `src/terminal/career_planner.py` and
`src/terminal/models.py`.  Pure Python functions become Lean functions,
methods that mutate `self` become functions from the state to the new
state, `datetime.now()` becomes an explicit `Nat` timestamp argument,
Python `float` fields (never used arithmetically by the embedded code)
become `ℚ`, and Python `str` becomes `String`.  Python `str.lower` is
modelled on its ASCII fragment (every keyword and every inspected
substring in the sources is ASCII or uncased CJK).
-/

/-- Model of Python `str.lower()` (ASCII fragment): lowercase every character. -/
def pyLower (s : String) : String :=
  ⟨s.data.map Char.toLower⟩

/-- Substring test on character lists: does `hay` contain `needle` as a
contiguous sublist?  Models Python `needle in hay` on strings. -/
def listHasSub (needle : List Char) : List Char → Bool
  | [] => needle.isEmpty
  | c :: rest => needle.isPrefixOf (c :: rest) || listHasSub needle rest

/-- Model of the Python substring operator `needle in hay`. -/
def strHasSub (hay needle : String) : Bool :=
  listHasSub needle.data hay.data

/-- Model of Python `str.strip()`: remove leading and trailing whitespace. -/
def pyStrip (s : String) : String :=
  ⟨((s.data.dropWhile Char.isWhitespace).reverse.dropWhile Char.isWhitespace).reverse⟩

/-! ## Intent classification (`src/terminal/agent.py`, `AgentCore`) -/

/-- User-intent enumeration from `src/terminal/models.py` (`class Intent`). -/
inductive Intent where
  | WEATHER
  | CAREER
  | GENERAL
deriving DecidableEq, Repr

/-- The fixed weather keyword list `AgentCore.WEATHER_KEYWORDS`. -/
def WEATHER_KEYWORDS : List String :=
  ["天气", "weather", "温度", "气温", "下雨", "下雪", "晴天", "阴天",
   "预报", "forecast", "湿度", "humidity", "风", "wind", "多少度",
   "冷", "热", "穿什么", "带伞", "出门", "明天", "今天", "后天",
   "这周", "周末", "气候", "climate"]

/-- The fixed career keyword list `AgentCore.CAREER_KEYWORDS`. -/
def CAREER_KEYWORDS : List String :=
  ["职业", "career", "工作", "job", "规划", "plan", "发展", "development",
   "转行", "跳槽", "面试", "interview", "简历", "resume", "技能", "skill",
   "学习", "learn", "提升", "improve", "薪资", "salary", "晋升", "promotion",
   "行业", "industry", "前景", "未来", "建议", "advice", "方向", "direction",
   "职业规划", "职业发展", "职业建议", "找工作", "换工作"]

/-- Embedding of `AgentCore._detect_intent`: lowercase the message, scan the
weather keywords first, then the career keywords, else General. -/
def detect_intent (message : String) : Intent :=
  let message_lower := pyLower message
  if WEATHER_KEYWORDS.any (fun k => strHasSub message_lower k) then
    Intent.WEATHER
  else if CAREER_KEYWORDS.any (fun k => strHasSub message_lower k) then
    Intent.CAREER
  else
    Intent.GENERAL

example : detect_intent "what is the Weather in Beijing" = Intent.WEATHER := by decide
example : detect_intent "career advice please" = Intent.CAREER := by decide
example : detect_intent "hello there" = Intent.GENERAL := by decide
example : detect_intent "Weather and my career plan" = Intent.WEATHER := by decide

/-! ## Interview engine (`src/terminal/career_planner.py`, `CareerPlanner`) -/

/-- Embedding of the `CareerContext` model fields (`src/terminal/models.py`). -/
structure CareerContext where
  basic_info : Option String := none
  interests : Option String := none
  skills : Option String := none
  experience : Option String := none
  goals : Option String := none
  preferences : Option String := none
deriving DecidableEq, Repr

/-- One record of `CareerPlanner.STAGE_QUESTIONS`. -/
structure StageInfo where
  question : String
  examples : String
  followup : String
deriving DecidableEq, Repr

/-- The ordered stage list `CareerPlanner.INTERVIEW_STAGES`. -/
def INTERVIEW_STAGES : List String :=
  ["basic_info", "interests", "skills", "experience", "goals", "preferences"]

/-- The question dictionary `CareerPlanner.STAGE_QUESTIONS`; `none` models a
key that is absent (Python `dict.get(stage, {})`). -/
def STAGE_QUESTIONS (stage : String) : Option StageInfo :=
  match stage with
  | "basic_info" => some
      ⟨"请介绍一下您的基本情况，包括年龄、学历、专业背景等。",
       "例如：我今年25岁，本科毕业于XX大学计算机专业，目前在一家互联网公司工作。",
       "能否补充一下您的学历和专业背景？这对职业规划很重要。"⟩
  | "interests" => some
      ⟨"您对哪些领域或技术方向感兴趣？平时喜欢做什么？",
       "例如：我对人工智能和数据分析很感兴趣，平时喜欢研究新技术和参加技术社区活动。",
       "能具体说说您感兴趣的技术方向吗？比如前端、后端、AI、数据等。"⟩
  | "skills" => some
      ⟨"请描述一下您目前掌握的技能，包括编程语言、工具、框架等。",
       "例如：熟练掌握Python和Java，了解React和Vue，使用过MySQL和MongoDB数据库。",
       "能详细说说您的技能熟练程度吗？哪些是精通的，哪些是了解的？"⟩
  | "experience" => some
      ⟨"请介绍一下您的工作或项目经验。",
       "例如：有3年后端开发经验，主要负责电商系统的订单模块，参与过微服务架构改造项目。",
       "能补充一下您在项目中的具体职责和成果吗？"⟩
  | "goals" => some
      ⟨"您的职业目标是什么？希望在未来3-5年达到什么样的职位或状态？",
       "例如：希望3年内成为技术专家或团队负责人，5年内能够独立带领团队完成大型项目。",
       "能具体说说您期望的职位级别或发展方向吗？"⟩
  | "preferences" => some
      ⟨"您对工作有什么偏好？比如工作地点、公司类型、薪资期望、工作强度等。",
       "例如：希望在一线城市工作，偏好大厂或独角兽公司，期望年薪30万以上，能接受适度加班。",
       "能补充一下您对公司文化或工作环境的期望吗？"⟩
  | _ => none

/-- `CareerPlanner.MIN_ANSWER_LENGTH`. -/
def MIN_ANSWER_LENGTH : Nat := 10

/-- Embedding of `CareerPlanner.is_answer_sufficient`: an empty answer or an
answer whose stripped length is below the threshold is insufficient. -/
def is_answer_sufficient (_stage : String) (answer : String) : Bool :=
  if answer = "" ∨ (pyStrip answer).length < MIN_ANSWER_LENGTH then false else true

/-- Embedding of `CareerPlanner.generate_followup_question`. -/
def generate_followup_question (stage : String) (_answer : String) : String :=
  let followup := match STAGE_QUESTIONS stage with
    | some info => info.followup
    | none => "能否提供更多细节？"
  let examples := match STAGE_QUESTIONS stage with
    | some info => info.examples
    | none => ""
  "📝 您的回答有点简短，" ++ followup ++ "\n\n" ++ "💡 " ++ examples

/-- The mutable fields of a `CareerPlanner` instance. -/
structure CareerPlannerState where
  context : CareerContext
  current_stage : Nat
  collected_info : List (String × String)
  needs_followup : Bool
deriving DecidableEq, Repr

/-- `CareerPlanner.__init__` / `CareerPlanner.reset`. -/
def CareerPlanner.init : CareerPlannerState :=
  ⟨{}, 0, [], false⟩

/-- Model of `setattr(self.context, stage, answer)` for the six stage names;
any other name leaves the context unchanged (pydantic would reject it, and
the engine only ever passes names drawn from `INTERVIEW_STAGES`). -/
def CareerContext.setField (c : CareerContext) (name value : String) : CareerContext :=
  match name with
  | "basic_info" => { c with basic_info := some value }
  | "interests" => { c with interests := some value }
  | "skills" => { c with skills := some value }
  | "experience" => { c with experience := some value }
  | "goals" => { c with goals := some value }
  | "preferences" => { c with preferences := some value }
  | _ => c

/-- Model of `getattr(self.context, stage)` for the six stage names. -/
def CareerContext.getField (c : CareerContext) (name : String) : Option String :=
  match name with
  | "basic_info" => c.basic_info
  | "interests" => c.interests
  | "skills" => c.skills
  | "experience" => c.experience
  | "goals" => c.goals
  | "preferences" => c.preferences
  | _ => none

/-- Model of Python dict assignment `d[k] = v` on an insertion-ordered dict. -/
def dictSet (k v : String) : List (String × String) → List (String × String)
  | [] => [(k, v)]
  | (k', v') :: rest => if k' = k then (k, v) :: rest else (k', v') :: dictSet k v rest

/-- Embedding of `CareerPlanner._save_answer`. -/
def save_answer (s : CareerPlannerState) (stage answer : String) : CareerPlannerState :=
  { s with context := s.context.setField stage answer,
           collected_info := dictSet stage answer s.collected_info }

/-- Embedding of `CareerPlanner.get_progress` (exact rational value of the
Python float `current_stage / len(INTERVIEW_STAGES)`). -/
def get_progress (s : CareerPlannerState) : ℚ :=
  if INTERVIEW_STAGES.length = 0 then 0
  else (s.current_stage : ℚ) / (INTERVIEW_STAGES.length : ℚ)

/-- The integer percentage `int(get_progress() * 100)` shown in the progress
bar.  For every reachable `current_stage` (0–6) the CPython float evaluation
agrees with the exact value `current_stage * 100 / 6` rounded toward zero. -/
def progressPercent (s : CareerPlannerState) : Nat :=
  s.current_stage * 100 / INTERVIEW_STAGES.length

/-- Embedding of `CareerPlanner._get_progress_bar`. -/
def progress_bar (s : CareerPlannerState) : String :=
  let total := INTERVIEW_STAGES.length
  let completed := s.current_stage
  let filled : String := ⟨List.replicate completed '█'⟩
  let empty : String := ⟨List.replicate (total - completed) '░'⟩
  "进度: [" ++ filled ++ empty ++ "] " ++ toString (progressPercent s) ++ "% (" ++
    toString completed ++ "/" ++ toString total ++ ")"

/-- Embedding of `CareerPlanner._get_current_question`. -/
def current_question (s : CareerPlannerState) : String :=
  if INTERVIEW_STAGES.length ≤ s.current_stage then ""
  else
    let stage := INTERVIEW_STAGES.getD s.current_stage ""
    let info := (STAGE_QUESTIONS stage).getD ⟨"", "", ""⟩
    "**问题 " ++ toString (s.current_stage + 1) ++ "/" ++
      toString INTERVIEW_STAGES.length ++ "**\n\n" ++ info.question ++ "\n\n" ++
      "💡 " ++ info.examples

/-- Embedding of `CareerPlanner._get_completion_message`. -/
def completion_message (s : CareerPlannerState) : String :=
  "✅ 信息收集完成！\n\n" ++ progress_bar s ++ "\n\n" ++
    "感谢您的耐心回答！我正在根据您提供的信息生成个性化职业规划报告...\n" ++
    "报告将包含职位推荐、技能发展路径、学习资源等内容。"

/-- Embedding of `CareerPlanner.process_answer`.  Returns the new planner
state together with the Python return value `(complete, response)`. -/
def process_answer (s : CareerPlannerState) (answer : String) :
    CareerPlannerState × Bool × String :=
  if INTERVIEW_STAGES.length ≤ s.current_stage then
    (s, true, "信息收集已完成！正在为您生成职业规划报告...")
  else
    let current_stage_name := INTERVIEW_STAGES.getD s.current_stage ""
    if ¬ is_answer_sufficient current_stage_name answer = true ∧
        ¬ s.needs_followup = true then
      ({ s with needs_followup := true }, false,
        generate_followup_question current_stage_name answer)
    else
      let s1 := save_answer s current_stage_name answer
      let s2 := { s1 with needs_followup := false,
                          current_stage := s1.current_stage + 1 }
      if INTERVIEW_STAGES.length ≤ s2.current_stage then
        (s2, true, completion_message s2)
      else
        (s2, false, progress_bar s2 ++ "\n\n" ++ current_question s2)

/-- Embedding of `CareerPlanner.is_complete`. -/
def CareerPlanner.is_complete (s : CareerPlannerState) : Bool :=
  decide (INTERVIEW_STAGES.length ≤ s.current_stage)

/-- The planner state reached from a fresh planner by a sequence of
`process_answer` calls (no reset in between). -/
def runAnswers (answers : List String) : CareerPlannerState :=
  answers.foldl (fun s a => (process_answer s a).1) CareerPlanner.init

example :
    (process_answer CareerPlanner.init "ok").1.current_stage = 0 ∧
    (process_answer CareerPlanner.init "ok").2.1 = false := by decide
example :
    (process_answer (process_answer CareerPlanner.init "ok").1 "ok").1.current_stage
      = 1 := by decide
example : (runAnswers ["ok", "ok"]).context.basic_info = some "ok" := by decide

/-! ## Weather history cache (`src/terminal/models.py`, `WeatherHistory`) -/

/-- Embedding of the `WeatherData` model.  Python `float` fields become `ℚ`
(they are only stored, never computed with) and the `datetime` field becomes
an abstract `Nat` instant. -/
structure WeatherData where
  city : String
  country : String := ""
  temperature : ℚ
  feels_like : ℚ := 0
  humidity : Nat
  wind_speed : ℚ
  condition : String
  icon : String := ""
  updated_at : Nat
deriving DecidableEq, Repr

/-- Embedding of the `WeatherHistoryEntry` model. -/
structure WeatherHistoryEntry where
  city : String
  last_query_time : Nat
  query_count : Nat := 1
  last_weather : WeatherData
deriving DecidableEq, Repr

/-- Embedding of the `WeatherHistory` model. -/
structure WeatherHistory where
  entries : List WeatherHistoryEntry := []
  max_entries : Nat := 10
deriving DecidableEq, Repr

/-- The case-folded key under which `add_entry` matches an entry. -/
def entryKey (e : WeatherHistoryEntry) : String :=
  pyLower e.city

/-- Model of the find-then-pop in `WeatherHistory.add_entry`: scan for the
first entry whose lowercased city equals `key` (the `for i, entry in
enumerate(...)` loop) and remove it (`self.entries.pop(existing_index)`),
returning the removed entry together with the remaining list. -/
def extractFirst (key : String) : List WeatherHistoryEntry →
    Option (WeatherHistoryEntry × List WeatherHistoryEntry)
  | [] => none
  | e :: rest =>
      if pyLower e.city = key then some (e, rest)
      else (extractFirst key rest).map fun p => (p.1, e :: p.2)

/-- Embedding of `WeatherHistory.add_entry`.  `now` stands for the value of
`datetime.now()` at the call. -/
def add_entry (h : WeatherHistory) (city : String) (weather : WeatherData)
    (now : Nat) : WeatherHistory :=
  let city_lower := pyLower city
  match extractFirst city_lower h.entries with
  | some (existing, rest) =>
      { h with entries :=
          { existing with last_query_time := now,
                          query_count := existing.query_count + 1,
                          last_weather := weather } :: rest }
  | none =>
      let new_entry : WeatherHistoryEntry :=
        { city := city, last_query_time := now, query_count := 1,
          last_weather := weather }
      let entries1 := new_entry :: h.entries
      if h.max_entries < entries1.length then
        { h with entries := entries1.take h.max_entries }
      else
        { h with entries := entries1 }

/-- Model of Python `max(self.entries, key=lambda e: e.query_count)` on a
non-empty list: fold keeping the current champion, replacing it only on a
strictly larger key, so the first of several tied maxima wins. -/
def maxByCount : WeatherHistoryEntry → List WeatherHistoryEntry → WeatherHistoryEntry
  | cur, [] => cur
  | cur, e :: rest =>
      maxByCount (if cur.query_count < e.query_count then e else cur) rest

/-- Embedding of `WeatherHistory.get_most_frequent_city`. -/
def WeatherHistory.get_most_frequent_city (h : WeatherHistory) : Option String :=
  match h.entries with
  | [] => none
  | e :: rest => some (maxByCount e rest).city

/-- Stable insertion into a list that is already sorted by descending
`last_query_time`; an incoming element passes over strictly later entries
only, so elements with equal times keep their original relative order. -/
def insertByTime (e : WeatherHistoryEntry) : List WeatherHistoryEntry →
    List WeatherHistoryEntry
  | [] => [e]
  | x :: xs =>
      if e.last_query_time < x.last_query_time then x :: insertByTime e xs
      else e :: x :: xs

/-- Model of Python `sorted(entries, key=lambda e: e.last_query_time,
reverse=True)`: a stable sort into descending `last_query_time` order. -/
def sortByTimeDesc : List WeatherHistoryEntry → List WeatherHistoryEntry
  | [] => []
  | e :: rest => insertByTime e (sortByTimeDesc rest)

/-- Embedding of `WeatherHistory.get_entries_sorted_by_time`. -/
def WeatherHistory.get_entries_sorted_by_time (h : WeatherHistory) : List WeatherHistoryEntry :=
  sortByTimeDesc h.entries

/-- Embedding of `WeatherService.get_history`
(`src/terminal/weather_service.py`): it delegates to the history model. -/
def WeatherService.get_history (h : WeatherHistory) : List WeatherHistoryEntry :=
  WeatherHistory.get_entries_sorted_by_time h

/-- Embedding of `WeatherService.get_most_frequent_city`: it delegates to the
history model. -/
def WeatherService.get_most_frequent_city (h : WeatherHistory) : Option String :=
  WeatherHistory.get_most_frequent_city h

/-- A single weather lookup as recorded by the cache: the queried city, the
returned snapshot and the `datetime.now()` instant of the call. -/
structure CacheOp where
  city : String
  weather : WeatherData
  time : Nat
deriving DecidableEq, Repr

/-- The cache state reached from a fresh (empty, `max_entries = 10`) history
by a sequence of `add_entry` calls. -/
def runCacheOps (ops : List CacheOp) : WeatherHistory :=
  ops.foldl (fun h op => add_entry h op.city op.weather op.time) {}

/-- A throwaway snapshot for concrete test inputs. -/
def wSample : WeatherData :=
  { city := "Beijing", temperature := 20, humidity := 50, wind_speed := 3,
    condition := "Sunny", updated_at := 0 }

example :
    (add_entry (add_entry {} "Beijing" wSample 1) "beijing" wSample 2).entries.length
      = 1 := by decide
example :
    (add_entry (add_entry {} "Beijing" wSample 1) "beijing" wSample 2).entries.map
      (fun e => e.query_count) = [2] := by decide
example :
    (runCacheOps ((List.range 11).map fun i =>
      ⟨"c" ++ toString i, wSample, i⟩)).entries.length = 10 := by decide

/-! ## Serialization (`src/terminal/models.py`, `to_json` / `from_json`)

`to_json` runs pydantic's `model_dump_json` and `from_json` runs
`model_validate_json`.  We embed the serialized document as an abstract JSON
tree: string rendering and parsing of the tree (a bijection supplied by the
json/pydantic libraries, not by this repository) is factored out, and the
ISO-8601 leaf encoding of a datetime instant is represented by the instant
itself.  The decoders validate documents of the shape the serializer emits,
field by field. -/

/-- Abstract JSON document tree.  Integer-valued and float-valued number
tokens are kept distinct, as the json wire format does. -/
inductive Json where
  | jnull
  | jbool (b : Bool)
  | jint (n : Int)
  | jnum (q : ℚ)
  | jstr (s : String)
  | jarr (items : List Json)
  | jobj (fields : List (String × Json))

/-- Key lookup in a JSON object (first binding wins). -/
def jlookup (k : String) : List (String × Json) → Option Json
  | [] => none
  | (k', v) :: rest => if k' = k then some v else jlookup k rest

/-- Validate a JSON leaf as a Python `str` field. -/
def decodeStr : Json → Option String
  | .jstr s => some s
  | _ => none

/-- Validate a JSON leaf as a non-negative Python `int` field. -/
def decodeNat : Json → Option Nat
  | .jint (Int.ofNat n) => some n
  | _ => none

/-- Validate a JSON leaf as a Python `float` field (an integer token is also
accepted, as pydantic coerces it). -/
def decodeRat : Json → Option ℚ
  | .jnum q => some q
  | .jint n => some (n : ℚ)
  | _ => none

/-- Serialized form of a `WeatherData` value. -/
def WeatherData.to_j (w : WeatherData) : Json :=
  .jobj [("city", .jstr w.city), ("country", .jstr w.country),
         ("temperature", .jnum w.temperature), ("feels_like", .jnum w.feels_like),
         ("humidity", .jint (Int.ofNat w.humidity)),
         ("wind_speed", .jnum w.wind_speed), ("condition", .jstr w.condition),
         ("icon", .jstr w.icon), ("updated_at", .jint (Int.ofNat w.updated_at))]

/-- Field-by-field validation of a serialized `WeatherData` document. -/
def WeatherData.of_j : Json → Option WeatherData
  | .jobj fields => do
      let city ← jlookup "city" fields >>= decodeStr
      let country ← jlookup "country" fields >>= decodeStr
      let temperature ← jlookup "temperature" fields >>= decodeRat
      let feels_like ← jlookup "feels_like" fields >>= decodeRat
      let humidity ← jlookup "humidity" fields >>= decodeNat
      let wind_speed ← jlookup "wind_speed" fields >>= decodeRat
      let condition ← jlookup "condition" fields >>= decodeStr
      let icon ← jlookup "icon" fields >>= decodeStr
      let updated_at ← jlookup "updated_at" fields >>= decodeNat
      pure { city := city, country := country, temperature := temperature,
             feels_like := feels_like, humidity := humidity,
             wind_speed := wind_speed, condition := condition, icon := icon,
             updated_at := updated_at }
  | _ => none

/-- Serialized form of a `WeatherHistoryEntry` value. -/
def WeatherHistoryEntry.to_j (e : WeatherHistoryEntry) : Json :=
  .jobj [("city", .jstr e.city),
         ("last_query_time", .jint (Int.ofNat e.last_query_time)),
         ("query_count", .jint (Int.ofNat e.query_count)),
         ("last_weather", e.last_weather.to_j)]

/-- Field-by-field validation of a serialized `WeatherHistoryEntry`. -/
def WeatherHistoryEntry.of_j : Json → Option WeatherHistoryEntry
  | .jobj fields => do
      let city ← jlookup "city" fields >>= decodeStr
      let last_query_time ← jlookup "last_query_time" fields >>= decodeNat
      let query_count ← jlookup "query_count" fields >>= decodeNat
      let weatherJ ← jlookup "last_weather" fields
      let last_weather ← WeatherData.of_j weatherJ
      pure { city := city, last_query_time := last_query_time,
             query_count := query_count, last_weather := last_weather }
  | _ => none

/-- Validation of the serialized entries array, element by element. -/
def decodeEntryList : List Json → Option (List WeatherHistoryEntry)
  | [] => some []
  | j :: rest => do
      let e ← WeatherHistoryEntry.of_j j
      let es ← decodeEntryList rest
      pure (e :: es)

/-- Embedding of `WeatherHistory.to_json` (the serialized document). -/
def WeatherHistory.to_json (h : WeatherHistory) : Json :=
  .jobj [("entries", .jarr (h.entries.map WeatherHistoryEntry.to_j)),
         ("max_entries", .jint (Int.ofNat h.max_entries))]

/-- Embedding of `WeatherHistory.from_json`. -/
def WeatherHistory.from_json : Json → Option WeatherHistory
  | .jobj fields => do
      let entriesJ ← jlookup "entries" fields
      let entries ← match entriesJ with
        | .jarr l => decodeEntryList l
        | _ => none
      let max_entries ← jlookup "max_entries" fields >>= decodeNat
      pure { entries := entries, max_entries := max_entries }
  | _ => none

/-- Embedding of the `APIConfig` model (`src/terminal/models.py`). -/
structure APIConfig where
  provider : String := "openai"
  base_url : String := "https://api.openai.com/v1"
  api_key : String := ""
  model : String := "gpt-3.5-turbo"
deriving DecidableEq, Repr

/-- Embedding of `APIConfig.to_json` (the serialized document). -/
def APIConfig.to_json (c : APIConfig) : Json :=
  .jobj [("provider", .jstr c.provider), ("base_url", .jstr c.base_url),
         ("api_key", .jstr c.api_key), ("model", .jstr c.model)]

/-- Embedding of `APIConfig.from_json`. -/
def APIConfig.from_json : Json → Option APIConfig
  | .jobj fields => do
      let provider ← jlookup "provider" fields >>= decodeStr
      let base_url ← jlookup "base_url" fields >>= decodeStr
      let api_key ← jlookup "api_key" fields >>= decodeStr
      let model ← jlookup "model" fields >>= decodeStr
      pure { provider := provider, base_url := base_url, api_key := api_key,
             model := model }
  | _ => none

/-! ## Streaming error recovery (`src/terminal/agent.py`,
`AgentCore._generate_streaming_response`, `except` branch) -/

/-- Embedding of the `except` branch of `_generate_streaming_response`: the
single apology chunk yielded when the generation call raises an exception
whose message is `error_msg`.  Note the second disjunct of the first guard is
the source's literal `"Unauthorized" in error_msg.lower()`. -/
def errorResponse (error_msg : String) : String :=
  if strHasSub error_msg "401" || strHasSub (pyLower error_msg) "Unauthorized" then
    "抱歉，API 配置似乎有问题。请检查您的 API Key 是否正确。"
  else if strHasSub error_msg "429" || strHasSub (pyLower error_msg) "rate limit" then
    "服务暂时繁忙，请稍后再试。"
  else if strHasSub (pyLower error_msg) "timeout" then
    "连接超时，请检查网络后重试。"
  else
    "处理您的请求时遇到了问题，请稍后再试。"

example : errorResponse "Error code: 401 - invalid key"
    = "抱歉，API 配置似乎有问题。请检查您的 API Key 是否正确。" := by decide
example : errorResponse "Unauthorized"
    = "处理您的请求时遇到了问题，请稍后再试。" := by decide
example : errorResponse "Request TIMEOUT after 30s"
    = "连接超时，请检查网络后重试。" := by decide

/-! ## Helper lemmas -/

theorem insufficient_of_short (stage answer : String)
    (h : (pyStrip answer).length < MIN_ANSWER_LENGTH) :
    is_answer_sufficient stage answer = false := by
  simp [is_answer_sufficient, h]

theorem interview_stages_length : INTERVIEW_STAGES.length = 6 := rfl

theorem process_answer_stage_mono (s : CareerPlannerState) (a : String) :
    s.current_stage ≤ (process_answer s a).1.current_stage := by
  unfold process_answer
  dsimp only
  split
  · exact le_refl _
  · split
    · exact le_refl _
    · split
      · simp [save_answer]
      · simp [save_answer]

theorem process_answer_stage_le (s : CareerPlannerState) (a : String)
    (h : s.current_stage ≤ 6) :
    (process_answer s a).1.current_stage ≤ 6 := by
  unfold process_answer
  dsimp only
  split
  · exact h
  next hlt =>
    rw [interview_stages_length] at hlt
    split
    · exact h
    · split
      · simp [save_answer]; omega
      · simp [save_answer]; omega

theorem runAnswers_stage_le (answers : List String) :
    (runAnswers answers).current_stage ≤ 6 := by
  have key : ∀ (l : List String) (s : CareerPlannerState), s.current_stage ≤ 6 →
      (l.foldl (fun s a => (process_answer s a).1) s).current_stage ≤ 6 := by
    intro l
    induction l with
    | nil => intro s hs; exact hs
    | cons a rest ih =>
        intro s hs
        exact ih _ (process_answer_stage_le s a hs)
  exact key answers CareerPlanner.init (by decide)

/-! ## Claim theorems -/

/-- C1: for every input text that contains (as a case-insensitive substring)
at least one keyword from the fixed Weather keyword list and at least one
keyword from the fixed Career keyword list, `_detect_intent` returns
`Intent.WEATHER`. -/
theorem C1_weather_priority (text : String)
    (hw : ∃ w ∈ WEATHER_KEYWORDS, strHasSub (pyLower text) w = true)
    (_hc : ∃ c ∈ CAREER_KEYWORDS, strHasSub (pyLower text) c = true) :
    detect_intent text = Intent.WEATHER := by
  obtain ⟨w, hwMem, hwSub⟩ := hw
  have hany : WEATHER_KEYWORDS.any (fun k => strHasSub (pyLower text) k) = true :=
    List.any_eq_true.mpr ⟨w, hwMem, hwSub⟩
  unfold detect_intent
  simp [hany]

/-- Witness for C1 at a concrete message containing keywords of both lists. -/
theorem C1_weather_priority_witness :
    (∃ w ∈ WEATHER_KEYWORDS, strHasSub (pyLower "Weather or a Career?") w = true) ∧
    (∃ c ∈ CAREER_KEYWORDS, strHasSub (pyLower "Weather or a Career?") c = true) ∧
    detect_intent "Weather or a Career?" = Intent.WEATHER :=
  ⟨by decide, by decide,
    C1_weather_priority "Weather or a Career?" (by decide) (by decide)⟩

/-- C2: for a stage receiving two consecutive answers whose trimmed length is
below 10 (with no follow-up already pending), the first `process_answer` call
returns `(false, follow-up prompt)` and leaves `current_stage` and all stored
answers unchanged (the first answer is discarded); the second call stores the
second answer verbatim under the current stage name, resets the follow-up
flag to `false`, and advances `current_stage` by exactly 1. -/
theorem C2_bounded_followup (s : CareerPlannerState) (a1 a2 : String)
    (hstage : s.current_stage < 6)
    (hnf : s.needs_followup = false)
    (h1 : (pyStrip a1).length < MIN_ANSWER_LENGTH)
    (h2 : (pyStrip a2).length < MIN_ANSWER_LENGTH) :
    (process_answer s a1).2.1 = false ∧
    (process_answer s a1).2.2 =
      generate_followup_question (INTERVIEW_STAGES.getD s.current_stage "") a1 ∧
    (process_answer s a1).1.current_stage = s.current_stage ∧
    (process_answer s a1).1.context = s.context ∧
    (process_answer s a1).1.collected_info = s.collected_info ∧
    (process_answer (process_answer s a1).1 a2).1.context.getField
      (INTERVIEW_STAGES.getD s.current_stage "") = some a2 ∧
    (process_answer (process_answer s a1).1 a2).1.collected_info =
      dictSet (INTERVIEW_STAGES.getD s.current_stage "") a2 s.collected_info ∧
    (process_answer (process_answer s a1).1 a2).1.needs_followup = false ∧
    (process_answer (process_answer s a1).1 a2).1.current_stage =
      s.current_stage + 1 := by
  have h1' : ∀ st, is_answer_sufficient st a1 = false :=
    fun st => insufficient_of_short st a1 h1
  have h2' : ∀ st, is_answer_sufficient st a2 = false :=
    fun st => insufficient_of_short st a2 h2
  obtain ⟨ctx, n, ci, nf⟩ := s
  simp only [CareerPlannerState.needs_followup] at hnf
  simp only [CareerPlannerState.current_stage] at hstage
  subst hnf
  interval_cases n <;>
    simp [process_answer, INTERVIEW_STAGES, save_answer, CareerContext.setField,
      CareerContext.getField, h1', h2']

/-- Witness for C2: a fresh planner and the two short answers "ok", "no". -/
theorem C2_bounded_followup_witness :
    (process_answer CareerPlanner.init "ok").2.1 = false ∧
    (process_answer CareerPlanner.init "ok").2.2 =
      generate_followup_question (INTERVIEW_STAGES.getD 0 "") "ok" ∧
    (process_answer CareerPlanner.init "ok").1.current_stage = 0 ∧
    (process_answer CareerPlanner.init "ok").1.context = CareerPlanner.init.context ∧
    (process_answer CareerPlanner.init "ok").1.collected_info = [] ∧
    (process_answer (process_answer CareerPlanner.init "ok").1 "no").1.context.getField
      (INTERVIEW_STAGES.getD 0 "") = some "no" ∧
    (process_answer (process_answer CareerPlanner.init "ok").1 "no").1.collected_info =
      dictSet (INTERVIEW_STAGES.getD 0 "") "no" [] ∧
    (process_answer (process_answer CareerPlanner.init "ok").1 "no").1.needs_followup
      = false ∧
    (process_answer (process_answer CareerPlanner.init "ok").1 "no").1.current_stage
      = 0 + 1 :=
  C2_bounded_followup CareerPlanner.init "ok" "no" (by decide) (by decide)
    (by decide) (by decide)

/-- C3: across any sequence of `process_answer` calls (without reset),
`current_stage` never decreases and never exceeds 6; `get_progress` always
equals `current_stage / 6`, lies in `[0, 1]`, and equals exactly 1 iff the
interview is complete. -/
theorem C3_progress_invariants (answers : List String) (a : String) :
    (runAnswers answers).current_stage ≤
      (process_answer (runAnswers answers) a).1.current_stage ∧
    (runAnswers answers).current_stage ≤ 6 ∧
    get_progress (runAnswers answers) =
      ((runAnswers answers).current_stage : ℚ) / 6 ∧
    0 ≤ get_progress (runAnswers answers) ∧
    get_progress (runAnswers answers) ≤ 1 ∧
    (get_progress (runAnswers answers) = 1 ↔
      CareerPlanner.is_complete (runAnswers answers) = true) := by
  have hle : (runAnswers answers).current_stage ≤ 6 := runAnswers_stage_le answers
  have hprog : get_progress (runAnswers answers) =
      ((runAnswers answers).current_stage : ℚ) / 6 := by
    simp [get_progress, interview_stages_length]
  refine ⟨process_answer_stage_mono _ a, hle, hprog, ?_, ?_, ?_⟩
  · rw [hprog]; positivity
  · rw [hprog, div_le_one (by norm_num)]
    exact_mod_cast hle
  · rw [hprog, div_eq_one_iff_eq (by norm_num)]
    simp only [CareerPlanner.is_complete, interview_stages_length, decide_eq_true_eq]
    constructor
    · intro hcast
      have : (runAnswers answers).current_stage = 6 := by exact_mod_cast hcast
      omega
    · intro h6
      have : (runAnswers answers).current_stage = 6 := by omega
      rw [this]; norm_num

/-- The invariants of C4: bounded size and at most one entry per case-folded
city key. -/
def CacheInv (h : WeatherHistory) : Prop :=
  h.entries.length ≤ h.max_entries ∧ (h.entries.map entryKey).Nodup

instance (h : WeatherHistory) : Decidable (CacheInv h) := by
  unfold CacheInv; infer_instance

theorem extractFirst_eq_none {key : String} {l : List WeatherHistoryEntry}
    (h : extractFirst key l = none) : ∀ e ∈ l, pyLower e.city ≠ key := by
  induction l with
  | nil => intro e he; cases he
  | cons x rest ih =>
      intro e he
      unfold extractFirst at h
      by_cases hx : pyLower x.city = key
      · simp [hx] at h
      · simp [hx] at h
        rcases List.mem_cons.mp he with rfl | hmem
        · exact hx
        · exact ih h e hmem

theorem extractFirst_eq_some {key : String} {l : List WeatherHistoryEntry}
    {e : WeatherHistoryEntry} {rest : List WeatherHistoryEntry}
    (h : extractFirst key l = some (e, rest)) :
    ∃ pre post, l = pre ++ e :: post ∧ rest = pre ++ post ∧
      (∀ x ∈ pre, pyLower x.city ≠ key) ∧ pyLower e.city = key := by
  induction l generalizing e rest with
  | nil => cases h
  | cons x tl ih =>
      unfold extractFirst at h
      by_cases hx : pyLower x.city = key
      · rw [if_pos hx] at h
        simp only [Option.some.injEq, Prod.mk.injEq] at h
        obtain ⟨rfl, rfl⟩ := h
        refine ⟨[], tl, rfl, rfl, ?_, hx⟩
        intro y hy
        cases hy
      · rw [if_neg hx, Option.map_eq_some'] at h
        obtain ⟨⟨e', rest'⟩, hrec, hp⟩ := h
        simp only [Prod.mk.injEq] at hp
        obtain ⟨rfl, rfl⟩ := hp
        obtain ⟨pre, post, hl, hrest, hpre, hkey⟩ := ih hrec
        refine ⟨x :: pre, post, by rw [hl]; simp, by rw [hrest]; simp, ?_, hkey⟩
        intro y hy
        rcases List.mem_cons.mp hy with rfl | hy
        · exact hx
        · exact hpre y hy

theorem extractFirst_append {key : String} {pre post : List WeatherHistoryEntry}
    {e : WeatherHistoryEntry}
    (hpre : ∀ x ∈ pre, pyLower x.city ≠ key) (he : pyLower e.city = key) :
    extractFirst key (pre ++ e :: post) = some (e, pre ++ post) := by
  induction pre with
  | nil => simp [extractFirst, he]
  | cons x tl ih =>
      have hx : pyLower x.city ≠ key := hpre x (List.mem_cons_self x tl)
      have htl : ∀ y ∈ tl, pyLower y.city ≠ key :=
        fun y hy => hpre y (List.mem_cons_of_mem x hy)
      simp [extractFirst, hx, ih htl]

theorem add_entry_found {h : WeatherHistory} {city : String} {w : WeatherData}
    {t : Nat} {ex : WeatherHistoryEntry} {rest : List WeatherHistoryEntry}
    (hsome : extractFirst (pyLower city) h.entries = some (ex, rest)) :
    add_entry h city w t =
      { h with entries :=
          { ex with last_query_time := t, query_count := ex.query_count + 1,
                    last_weather := w } :: rest } := by
  unfold add_entry
  dsimp only
  rw [hsome]

theorem add_entry_new {h : WeatherHistory} {city : String} {w : WeatherData}
    {t : Nat} (hnone : extractFirst (pyLower city) h.entries = none) :
    add_entry h city w t =
      if h.max_entries < h.entries.length + 1 then
        { h with entries :=
            (({ city := city, last_query_time := t, query_count := 1,
                last_weather := w } : WeatherHistoryEntry) ::
              h.entries).take h.max_entries }
      else
        { h with entries :=
            ({ city := city, last_query_time := t, query_count := 1,
               last_weather := w } : WeatherHistoryEntry) :: h.entries } := by
  unfold add_entry
  dsimp only
  rw [hnone]
  simp only [List.length_cons]

theorem add_entry_inv (h : WeatherHistory) (city : String) (w : WeatherData)
    (t : Nat) (hmax : 1 ≤ h.max_entries) (hinv : CacheInv h) :
    CacheInv (add_entry h city w t) ∧
    ∃ e rest, (add_entry h city w t).entries = e :: rest ∧
      entryKey e = pyLower city := by
  obtain ⟨hlen, hnd⟩ := hinv
  cases hext : extractFirst (pyLower city) h.entries with
  | some p =>
      obtain ⟨ex, rest⟩ := p
      obtain ⟨pre, post, hl, hrest, hpre, hkey⟩ := extractFirst_eq_some hext
      rw [add_entry_found hext]
      dsimp only
      refine ⟨⟨?_, ?_⟩, ?_⟩
      · have h1 : h.entries.length = rest.length + 1 := by
          rw [hl, hrest]; simp [List.length_append]; omega
        simp only [List.length_cons]
        omega
      · have hnd' := hnd
        rw [hl] at hnd'
        simp only [List.map_append, List.map_cons] at hnd'
        rw [List.nodup_middle] at hnd'
        rw [hrest]
        simpa [entryKey, List.map_append] using hnd'
      · exact ⟨_, rest, rfl, hkey⟩
  | none =>
      have hall := extractFirst_eq_none hext
      have hkeyfree : pyLower city ∉ h.entries.map entryKey := by
        intro hmem
        obtain ⟨e, he, hke⟩ := List.mem_map.mp hmem
        exact hall e he hke
      rw [add_entry_new hext]
      by_cases hcap : h.max_entries < h.entries.length + 1
      · rw [if_pos hcap]
        dsimp only
        obtain ⟨m, hm⟩ : ∃ m, h.max_entries = m + 1 := ⟨h.max_entries - 1, by omega⟩
        rw [hm, List.take_succ_cons]
        refine ⟨⟨?_, ?_⟩, ?_⟩
        · simp only [List.length_cons, List.length_take]
          omega
        · rw [List.map_cons, List.nodup_cons]
          constructor
          · intro hmem
            exact hkeyfree
              (((List.take_sublist m h.entries).map entryKey).subset hmem)
          · exact ((List.take_sublist m h.entries).map entryKey).nodup hnd
        · exact ⟨_, _, rfl, by simp [entryKey]⟩
      · rw [if_neg hcap]
        dsimp only
        refine ⟨⟨?_, ?_⟩, ?_⟩
        · simp only [List.length_cons]
          omega
        · rw [List.map_cons, List.nodup_cons]
          exact ⟨by simpa [entryKey] using hkeyfree, hnd⟩
        · exact ⟨_, _, rfl, by simp [entryKey]⟩

/-- The eleven distinct cities of the concrete consequence in C4. -/
def elevenCities : List CacheOp :=
  (List.range 11).map fun i => ⟨"c" ++ toString i, wSample, i⟩

/-- C4: `add_entry` preserves the cache invariants: after every call,
`entries.length ≤ max_entries` (10), at most one entry exists per case-folded
city key, and the city just touched is at index 0.  Consequently, starting
from the empty cache and touching 11 distinct cities, exactly 10 entries
remain and the first-touched city is absent. -/
theorem C4_cache_invariants :
    (∀ (h : WeatherHistory) (city : String) (w : WeatherData) (t : Nat),
        h.max_entries = 10 → CacheInv h →
        CacheInv (add_entry h city w t) ∧
        ∃ e rest, (add_entry h city w t).entries = e :: rest ∧
          entryKey e = pyLower city) ∧
    (runCacheOps elevenCities).entries.length = 10 ∧
    ∀ e ∈ (runCacheOps elevenCities).entries, e.city ≠ "c0" := by
  refine ⟨?_, by decide, by decide⟩
  intro h city w t hmax hinv
  exact add_entry_inv h city w t (by omega) hinv

/-- Witness for C4 at the empty cache and the city "Beijing". -/
theorem C4_cache_invariants_witness :
    CacheInv (add_entry {} "Beijing" wSample 5) ∧
    ∃ e rest, (add_entry {} "Beijing" wSample 5).entries = e :: rest ∧
      entryKey e = pyLower "Beijing" :=
  C4_cache_invariants.1 {} "Beijing" wSample 5 rfl (by decide)

/-- C5: when `add_entry` is called with a city whose case-folded key already
has an entry, that entry is moved to index 0, its `query_count` is
incremented by exactly 1, and its `last_weather` and `last_query_time` are
overwritten; every other entry (those before and after the matched one) is
unchanged and keeps its relative order. -/
theorem C5_recency_update (h : WeatherHistory) (city : String) (w : WeatherData)
    (t : Nat) (pre post : List WeatherHistoryEntry) (e : WeatherHistoryEntry)
    (hsplit : h.entries = pre ++ e :: post)
    (hpre : ∀ x ∈ pre, pyLower x.city ≠ pyLower city)
    (hkey : pyLower e.city = pyLower city) :
    (add_entry h city w t).entries =
      { e with last_query_time := t, query_count := e.query_count + 1,
               last_weather := w } :: (pre ++ post) ∧
    (add_entry h city w t).max_entries = h.max_entries := by
  have hext : extractFirst (pyLower city) h.entries = some (e, pre ++ post) := by
    rw [hsplit]; exact extractFirst_append hpre hkey
  rw [add_entry_found hext]
  exact ⟨rfl, rfl⟩

/-- A two-entry history used as concrete test input. -/
def hSample : WeatherHistory :=
  { entries := [⟨"Shanghai", 1, 1, wSample⟩, ⟨"Beijing", 2, 3, wSample⟩],
    max_entries := 10 }

/-- Witness for C5: touching "beijing" in a history whose second entry is
"Beijing" bumps that entry to the front with count 4. -/
theorem C5_recency_update_witness :
    (add_entry hSample "beijing" wSample 7).entries =
      { (⟨"Beijing", 2, 3, wSample⟩ : WeatherHistoryEntry) with
          last_query_time := 7,
          query_count := (⟨"Beijing", 2, 3, wSample⟩ : WeatherHistoryEntry).query_count + 1,
          last_weather := wSample } :: ([⟨"Shanghai", 1, 1, wSample⟩] ++ []) ∧
    (add_entry hSample "beijing" wSample 7).max_entries = hSample.max_entries :=
  C5_recency_update hSample "beijing" wSample 7 [⟨"Shanghai", 1, 1, wSample⟩] []
    ⟨"Beijing", 2, 3, wSample⟩ (by decide) (by decide) (by decide)

theorem maxByCount_split (l : List WeatherHistoryEntry) :
    ∀ cur : WeatherHistoryEntry,
    ∃ pre post, cur :: l = pre ++ maxByCount cur l :: post ∧
      (∀ x ∈ pre, x.query_count < (maxByCount cur l).query_count) ∧
      (∀ x ∈ cur :: l, x.query_count ≤ (maxByCount cur l).query_count) := by
  induction l with
  | nil =>
      intro cur
      refine ⟨[], [], rfl, ?_, ?_⟩
      · intro x hx; cases hx
      · intro x hx
        rcases List.mem_cons.mp hx with rfl | hx
        · exact le_refl _
        · cases hx
  | cons e rest ih =>
      intro cur
      simp only [maxByCount]
      by_cases hce : cur.query_count < e.query_count
      · rw [if_pos hce]
        obtain ⟨pre', post', heq, hpre', hall'⟩ := ih e
        have hemax : e.query_count ≤ (maxByCount e rest).query_count :=
          hall' e (List.mem_cons_self e rest)
        refine ⟨cur :: pre', post', ?_, ?_, ?_⟩
        · rw [List.cons_append, ← heq]
        · intro x hx
          rcases List.mem_cons.mp hx with rfl | hx
          · exact lt_of_lt_of_le hce hemax
          · exact hpre' x hx
        · intro x hx
          rcases List.mem_cons.mp hx with rfl | hx
          · exact le_of_lt (lt_of_lt_of_le hce hemax)
          · exact hall' x hx
      · rw [if_neg hce]
        obtain ⟨pre', post', heq, hpre', hall'⟩ := ih cur
        cases pre' with
        | nil =>
            simp only [List.nil_append] at heq
            injection heq with h1 h2
            refine ⟨[], e :: rest, ?_, ?_, ?_⟩
            · simp only [List.nil_append]
              rw [← h1]
            · intro x hx; cases hx
            · intro x hx
              rw [← h1]
              rcases List.mem_cons.mp hx with rfl | hx
              · exact le_refl _
              · rcases List.mem_cons.mp hx with rfl | hx2
                · exact le_of_not_lt hce
                · rw [← h1] at hall'
                  exact hall' x (List.mem_cons_of_mem cur hx2)
        | cons p pre'' =>
            injection heq with h1 h2
            subst h1
            have hcurlt : cur.query_count < (maxByCount cur rest).query_count :=
              hpre' cur (List.mem_cons_self cur pre'')
            refine ⟨cur :: e :: pre'', post', ?_, ?_, ?_⟩
            · rw [List.cons_append, List.cons_append, ← List.append_eq, ← h2]
            · intro x hx
              rcases List.mem_cons.mp hx with rfl | hx
              · exact hcurlt
              · rcases List.mem_cons.mp hx with rfl | hx2
                · exact lt_of_le_of_lt (le_of_not_lt hce) hcurlt
                · exact hpre' x (List.mem_cons_of_mem cur hx2)
            · intro x hx
              rcases List.mem_cons.mp hx with rfl | hx
              · exact hall' _ (List.mem_cons_self _ _)
              · rcases List.mem_cons.mp hx with rfl | hx2
                · exact le_trans (le_of_not_lt hce)
                    (hall' _ (List.mem_cons_self _ _))
                · exact hall' x (List.mem_cons_of_mem _ hx2)

/-- C6: for every non-empty entries list, `get_most_frequent_city` returns
the city of an entry with the maximum `query_count`, and when several entries
share that maximum it returns the one at the smallest index of the stored
recency-ordered list (no entry before it has a count that large). -/
theorem C6_frequency_tiebreak (h : WeatherHistory) (hne : h.entries ≠ []) :
    ∃ e pre post, WeatherHistory.get_most_frequent_city h = some e.city ∧
      h.entries = pre ++ e :: post ∧
      (∀ x ∈ pre, x.query_count < e.query_count) ∧
      (∀ x ∈ h.entries, x.query_count ≤ e.query_count) := by
  cases hl : h.entries with
  | nil => exact absurd hl hne
  | cons a rest =>
      obtain ⟨pre, post, heq, hpre, hall⟩ := maxByCount_split rest a
      refine ⟨maxByCount a rest, pre, post, ?_, ?_, hpre, ?_⟩
      · unfold WeatherHistory.get_most_frequent_city
        rw [hl]
      · exact heq
      · intro x hx
        exact hall x hx

/-- A history with two entries tied at the maximum count, most recent first. -/
def hTie : WeatherHistory :=
  { entries := [⟨"Paris", 5, 2, wSample⟩, ⟨"London", 4, 2, wSample⟩],
    max_entries := 10 }

/-- Witness for C6 at a two-entry tie: the entry at index 0 wins. -/
theorem C6_frequency_tiebreak_witness :
    ∃ e pre post, WeatherHistory.get_most_frequent_city hTie = some e.city ∧
      hTie.entries = pre ++ e :: post ∧
      (∀ x ∈ pre, x.query_count < e.query_count) ∧
      (∀ x ∈ hTie.entries, x.query_count ≤ e.query_count) :=
  C6_frequency_tiebreak hTie (by decide)

example : WeatherHistory.get_most_frequent_city hTie = some "Paris" := by decide

/-- C10: `get_most_frequent_city` returns `none` iff the entries list is
empty; on a non-empty list it returns the stored (non-normalized) city string
of one of the entries; the `WeatherService` wrapper delegates to it. -/
theorem C10_most_frequent_total (h : WeatherHistory) :
    (WeatherHistory.get_most_frequent_city h = none ↔ h.entries = []) ∧
    (h.entries ≠ [] →
      ∃ e ∈ h.entries, WeatherHistory.get_most_frequent_city h = some e.city) ∧
    WeatherService.get_most_frequent_city h =
      WeatherHistory.get_most_frequent_city h := by
  refine ⟨?_, ?_, rfl⟩
  · cases hl : h.entries with
    | nil =>
        unfold WeatherHistory.get_most_frequent_city
        rw [hl]
        simp [hl]
    | cons a rest =>
        unfold WeatherHistory.get_most_frequent_city
        rw [hl]
        simp [hl]
  · intro hne
    cases hl : h.entries with
    | nil => exact absurd hl hne
    | cons a rest =>
        obtain ⟨pre, post, heq, hpre, hall⟩ := maxByCount_split rest a
        refine ⟨maxByCount a rest, ?_, ?_⟩
        · rw [heq]
          exact List.mem_append_right _ (List.mem_cons_self _ _)
        · unfold WeatherHistory.get_most_frequent_city
          rw [hl]

/-- Witness for C10's non-emptiness hypothesis at a concrete history. -/
theorem C10_most_frequent_total_witness :
    ∃ e ∈ hSample.entries,
      WeatherHistory.get_most_frequent_city hSample = some e.city :=
  (C10_most_frequent_total hSample).2.1 (by decide)

/-- Entries in non-increasing `last_query_time` order (index 0 most recent). -/
def TimeSorted (l : List WeatherHistoryEntry) : Prop :=
  List.Pairwise (fun a b => b.last_query_time ≤ a.last_query_time) l

theorem sortByTimeDesc_eq_self {l : List WeatherHistoryEntry}
    (h : TimeSorted l) : sortByTimeDesc l = l := by
  induction l with
  | nil => rfl
  | cons e rest ih =>
      obtain ⟨hhead, htail⟩ := List.pairwise_cons.mp h
      simp only [sortByTimeDesc]
      rw [ih htail]
      cases rest with
      | nil => rfl
      | cons x xs =>
          have hx : ¬ e.last_query_time < x.last_query_time :=
            not_lt.mpr (hhead x (List.mem_cons_self x xs))
          simp [insertByTime, hx]

theorem add_entry_time_inv (h : WeatherHistory) (c : String) (w : WeatherData)
    (t : Nat) (hs : TimeSorted h.entries)
    (hle : ∀ e ∈ h.entries, e.last_query_time ≤ t) :
    TimeSorted (add_entry h c w t).entries ∧
    ∀ e ∈ (add_entry h c w t).entries, e.last_query_time ≤ t := by
  cases hext : extractFirst (pyLower c) h.entries with
  | some p =>
      obtain ⟨ex, rest⟩ := p
      obtain ⟨pre, post, hl, hrest, _, _⟩ := extractFirst_eq_some hext
      rw [add_entry_found hext]
      dsimp only
      have hsub : rest.Sublist h.entries := by
        rw [hl, hrest]
        exact List.Sublist.append_left (List.sublist_cons_self ex post) pre
      constructor
      · refine List.pairwise_cons.mpr ⟨?_, ?_⟩
        · intro b hb
          exact hle b (hsub.subset hb)
        · exact List.Pairwise.sublist hsub hs
      · intro e he
        rcases List.mem_cons.mp he with rfl | he2
        · exact le_refl _
        · exact hle e (hsub.subset he2)
  | none =>
      rw [add_entry_new hext]
      have hsorted : TimeSorted
          (({ city := c, last_query_time := t, query_count := 1,
              last_weather := w } : WeatherHistoryEntry) :: h.entries) :=
        List.pairwise_cons.mpr ⟨fun b hb => hle b hb, hs⟩
      by_cases hcap : h.max_entries < h.entries.length + 1
      · rw [if_pos hcap]
        dsimp only
        constructor
        · exact List.Pairwise.sublist (List.take_sublist _ _) hsorted
        · intro e he
          have hmem := (List.take_sublist _ _).subset he
          rcases List.mem_cons.mp hmem with rfl | he2
          · exact le_refl _
          · exact hle e he2
      · rw [if_neg hcap]
        dsimp only
        constructor
        · exact hsorted
        · intro e he
          rcases List.mem_cons.mp he with rfl | he2
          · exact le_refl _
          · exact hle e he2

theorem runCache_time_inv (ops : List CacheOp) :
    ∀ (h : WeatherHistory) (t : Nat),
      TimeSorted h.entries → (∀ e ∈ h.entries, e.last_query_time ≤ t) →
      (∀ op ∈ ops, t ≤ op.time) →
      List.Pairwise (fun a b => a.time ≤ b.time) ops →
      TimeSorted
        ((ops.foldl (fun h op => add_entry h op.city op.weather op.time)
          h).entries) := by
  induction ops with
  | nil =>
      intro h t hs _ _ _
      exact hs
  | cons op rest ih =>
      intro h t hs hle hfirst hpair
      simp only [List.foldl_cons]
      obtain ⟨hs', hle'⟩ := add_entry_time_inv h op.city op.weather op.time hs
        (fun e he => le_trans (hle e he) (hfirst op (List.mem_cons_self _ _)))
      obtain ⟨hops, hpair'⟩ := List.pairwise_cons.mp hpair
      exact ih _ op.time hs' hle' hops hpair'

/-- C9: for every cache state reachable from the empty cache by `add_entry`
calls with non-decreasing timestamps, `get_entries_sorted_by_time` (and the
`WeatherService.get_history` wrapper) returns the stored entries list
unchanged, element by element. -/
theorem C9_entries_by_recency (ops : List CacheOp)
    (hchain : List.Chain' (fun a b => a.time ≤ b.time) ops) :
    WeatherHistory.get_entries_sorted_by_time (runCacheOps ops) =
      (runCacheOps ops).entries ∧
    WeatherService.get_history (runCacheOps ops) = (runCacheOps ops).entries := by
  haveI : IsTrans CacheOp (fun a b => a.time ≤ b.time) :=
    ⟨fun a b c hab hbc => le_trans hab hbc⟩
  have hpair : List.Pairwise (fun a b => a.time ≤ b.time) ops :=
    List.chain'_iff_pairwise.mp hchain
  have hsorted : TimeSorted (runCacheOps ops).entries :=
    runCache_time_inv ops {} 0 List.Pairwise.nil
      (fun e he => absurd he (List.not_mem_nil e))
      (fun _ _ => Nat.zero_le _) hpair
  have hmain : WeatherHistory.get_entries_sorted_by_time (runCacheOps ops) =
      (runCacheOps ops).entries := sortByTimeDesc_eq_self hsorted
  exact ⟨hmain, hmain⟩

/-- Witness for C9 at a concrete op sequence with non-decreasing times. -/
theorem C9_entries_by_recency_witness :
    WeatherHistory.get_entries_sorted_by_time
      (runCacheOps [⟨"Paris", wSample, 1⟩, ⟨"London", wSample, 1⟩,
        ⟨"paris", wSample, 2⟩]) =
      (runCacheOps [⟨"Paris", wSample, 1⟩, ⟨"London", wSample, 1⟩,
        ⟨"paris", wSample, 2⟩]).entries ∧
    WeatherService.get_history
      (runCacheOps [⟨"Paris", wSample, 1⟩, ⟨"London", wSample, 1⟩,
        ⟨"paris", wSample, 2⟩]) =
      (runCacheOps [⟨"Paris", wSample, 1⟩, ⟨"London", wSample, 1⟩,
        ⟨"paris", wSample, 2⟩]).entries :=
  C9_entries_by_recency
    [⟨"Paris", wSample, 1⟩, ⟨"London", wSample, 1⟩, ⟨"paris", wSample, 2⟩]
    (by simp [List.chain'_cons])

theorem entry_of_j_to_j (e : WeatherHistoryEntry) :
    WeatherHistoryEntry.of_j e.to_j = some e := rfl

theorem decodeEntryList_map (l : List WeatherHistoryEntry) :
    decodeEntryList (l.map WeatherHistoryEntry.to_j) = some l := by
  induction l with
  | nil => rfl
  | cons e rest ih =>
      simp [decodeEntryList, entry_of_j_to_j, ih]

/-- C7: serialization round-trip is the identity: for every `APIConfig` value
`c`, `from_json (to_json c)` re-validates to exactly `c`, and for every
`WeatherHistory` value `h`, `from_json (to_json h)` re-validates to exactly
`h` field-for-field (entries, `max_entries`, query counts, timestamps and
weather snapshots included). -/
theorem C7_roundtrip :
    (∀ c : APIConfig, APIConfig.from_json (APIConfig.to_json c) = some c) ∧
    ∀ h : WeatherHistory,
      WeatherHistory.from_json (WeatherHistory.to_json h) = some h := by
  refine ⟨fun c => rfl, fun h => ?_⟩
  have hstep : WeatherHistory.from_json (WeatherHistory.to_json h) =
      (decodeEntryList (h.entries.map WeatherHistoryEntry.to_j)).bind
        (fun entries =>
          some ⟨entries, h.max_entries⟩) := rfl
  rw [hstep, decodeEntryList_map]
  rfl

/-- C8 (code bug): the claim says a failure message containing
"unauthorized" in any letter case yields the check-your-API-key apology, but
the source tests `"Unauthorized" in error_msg.lower()` — a mixed-case needle
against a lowercased haystack, which can never match — so the message
"Unauthorized" falls through to the generic apology.  The "401", "429",
"rate limit" and "timeout" categories behave as claimed. -/
theorem C8_error_classification :
    errorResponse "Unauthorized" = "处理您的请求时遇到了问题，请稍后再试。" ∧
    errorResponse "Error code: 401 - invalid key"
      = "抱歉，API 配置似乎有问题。请检查您的 API Key 是否正确。" ∧
    errorResponse "429 Too Many Requests" = "服务暂时繁忙，请稍后再试。" ∧
    errorResponse "Rate limit exceeded" = "服务暂时繁忙，请稍后再试。" ∧
    errorResponse "Connection TIMEOUT" = "连接超时，请检查网络后重试。" ∧
    errorResponse "boom" = "处理您的请求时遇到了问题，请稍后再试。" :=
  ⟨by decide, by decide, by decide, by decide, by decide, by decide⟩
